import Mathlib

/-!
Verification of the LRCP (reliable byte stream over unreliable datagrams)
core of the repository: the message codec (escaping, framing, parsing),
the per-session state machine (send/receive offsets, acknowledgments,
retransmission and expiry timers) and the session registry dispatcher.

Strings are modelled as `List Char` (the traffic the protocol handles is
ASCII text, where JS string length, UTF-16 length and byte length agree).
JS `replaceAll` with a one-character pattern is a flat map; with a
two-character pattern it is the left-to-right, non-overlapping scan
implemented by `replaceAll2` below.
-/

namespace LRCP

/-- Left-to-right, non-overlapping replacement of the two-character pattern
`a, b` by `out`, as performed by JS `String.replaceAll` with a two-character
search string. -/
def replaceAll2 (a b : Char) (out : List Char) : List Char → List Char
  | [] => []
  | [c] => [c]
  | c :: d :: rest =>
    if c = a ∧ d = b then out ++ replaceAll2 a b out rest
    else c :: replaceAll2 a b out (d :: rest)
termination_by l => l.length
decreasing_by all_goals simp_arith

/-- Session.escapeData, first step: `replaceAll("\\", "\\\\")` — every
backslash becomes two backslashes (one-character pattern, a flat map). -/
def sub1 (l : List Char) : List Char :=
  l.flatMap fun c => if c = '\\' then ['\\', '\\'] else [c]

/-- Session.escapeData, second step: `replaceAll("/", "\\/")`. -/
def sub2 (l : List Char) : List Char :=
  l.flatMap fun c => if c = '/' then ['\\', '/'] else [c]

/-- Session.escapeData: escape `\` then `/`. -/
def escapeData (l : List Char) : List Char := sub2 (sub1 l)

/-- Session.unescapeData: `replaceAll("\\\\", "\\")` then
`replaceAll("\\/", "/")`. -/
def unescapeData (l : List Char) : List Char :=
  replaceAll2 '\\' '/' ['/'] (replaceAll2 '\\' '\\' ['\\'] l)

/-- isDataValid: delete all `\\` pairs, then all `\/` pairs, and require
that no `/` and no `\` remains. -/
def isDataValid (l : List Char) : Bool :=
  let m := replaceAll2 '\\' '/' [] (replaceAll2 '\\' '\\' [] l)
  !(m.contains '/') && !(m.contains '\\')

/-- Reference form of the double removal performed by isDataValid: the
payload with every `/` and every `\` deleted (what remains after removing
the `\\` pairs and then the `\/` pairs of a well-escaped payload). -/
def cleanse : List Char → List Char
  | [] => []
  | c :: l => if c = '/' ∨ c = '\\' then cleanse l else c :: cleanse l

/-- Decimal digit character for a value below ten, as produced by the JS
number-to-string conversion used in the template literals of the encoders. -/
def digitChar (m : Nat) : Char :=
  if m = 0 then '0' else if m = 1 then '1' else if m = 2 then '2'
  else if m = 3 then '3' else if m = 4 then '4' else if m = 5 then '5'
  else if m = 6 then '6' else if m = 7 then '7' else if m = 8 then '8'
  else '9'

/-- Fuel-driven digit accumulator; the fuel argument only forces structural
termination and is irrelevant whenever it exceeds the value (proved below). -/
def natToDigitsAux : Nat → Nat → List Char → List Char
  | 0, _, acc => acc
  | fuel + 1, n, acc =>
    if n < 10 then digitChar n :: acc
    else natToDigitsAux fuel (n / 10) (digitChar (n % 10) :: acc)

/-- Decimal digits (most significant first) of a natural number, as produced
by the JS number-to-string conversion for integers in the exact range. -/
def natToDigits (n : Nat) : List Char := natToDigitsAux (n + 1) n []

/-- Numeric value of a big-endian list of decimal digit characters. -/
def natOfDigits (l : List Char) : Nat :=
  l.foldl (fun a c => 10 * a + (c.toNat - 48)) 0

/-- Rounding of an exact natural number to the nearest IEEE-754 binary64
value (ties to even), the conversion JS `parseInt` performs after computing
the mathematical value of the digit string.  Faithful for every value below
2^1024 (larger values overflow to Infinity in JS; all frames settled here
are far below that).  The helper counts how many halvings bring the value
below 2^53, which for values at least 2^53 is the exponent of the binary64
representation (the quotient then lies in the mantissa range
[2^52, 2^53)). -/
def expAbove53 : Nat → Nat → Nat
  | 0, _ => 0
  | fuel + 1, n => if n < 2 ^ 53 then 0 else expAbove53 fuel (n / 2) + 1

def roundF64 (n : Nat) : Nat :=
  if n ≤ 2 ^ 53 then n
  else
    let e := expAbove53 n n
    let q := n / 2 ^ e
    let r := n % 2 ^ e
    let half := 2 ^ e / 2
    let q2 := if half < r ∨ (r = half ∧ q % 2 = 1) then q + 1 else q
    q2 * 2 ^ e

/-- JS `parseInt` applied to a (nonempty) string of decimal digits. -/
def jsParseInt (l : List Char) : Nat := roundF64 (natOfDigits l)

/-- The four LRCP wire messages (parseMsg result type). -/
inductive Message where
  | connect (sessionId : Nat)
  | close (sessionId : Nat)
  | data (sessionId pos : Nat) (payload : List Char)
  | ack (sessionId len : Nat)
deriving DecidableEq, Repr

def connectPfx : List Char := ['/', 'c', 'o', 'n', 'n', 'e', 'c', 't', '/']

def closePfx : List Char := ['/', 'c', 'l', 'o', 's', 'e', '/']

def dataPfx : List Char := ['/', 'd', 'a', 't', 'a', '/']

def ackPfx : List Char := ['/', 'a', 'c', 'k', '/']

/-- Frame sent by `sendClose` in the dispatcher. -/
def closeMsg (id : Nat) : List Char := closePfx ++ (natToDigits id ++ ['/'])

/-- Frame of a client CONNECT message. -/
def connectMsg (id : Nat) : List Char := connectPfx ++ (natToDigits id ++ ['/'])

/-- Frame sent by `Session._ack`. -/
def ackMsg (id pos : Nat) : List Char :=
  ackPfx ++ (natToDigits id ++ '/' :: (natToDigits pos ++ ['/']))

/-- Frame built by `Session._data` from the session id, the current
`sendLength` and the raw chunk (escaped on encode). -/
def dataMsg (id pos : Nat) (d : List Char) : List Char :=
  dataPfx ++ (natToDigits id ++ '/' :: (natToDigits pos ++ '/' :: (escapeData d ++ ['/'])))

/-- Match a literal prefix, returning the remainder. -/
def stripPfx : List Char → List Char → Option (List Char)
  | [], l => some l
  | _ :: _, [] => none
  | p :: ps, c :: cs => if c = p then stripPfx ps cs else none

/-- Maximal leading run of decimal digits and the remainder (the forced,
deterministic reading of a greedy `(\d+)` regex group followed by a
non-digit literal). -/
def digitSpan : List Char → List Char × List Char
  | [] => ([], [])
  | c :: rest =>
    if c.isDigit then
      let p := digitSpan rest
      (c :: p.1, p.2)
    else ([], c :: rest)

/-- Nonempty maximal digit run, or failure. -/
def parseNum (l : List Char) : Option (List Char × List Char) :=
  let p := digitSpan l
  if p.1 = [] then none else some p

/-- Consume one `/`. -/
def expectSlash : List Char → Option (List Char)
  | [] => none
  | c :: r => if c = '/' then some r else none

/-- Recognizer of `^\/connect\/(\d+)\/$`: the greedy digit group is forced
to be the maximal digit run, followed by exactly the closing slash. -/
def tryConnect (l : List Char) : Option Message :=
  match stripPfx connectPfx l with
  | none => none
  | some r =>
    match parseNum r with
    | none => none
    | some (d, r2) =>
      if r2 = ['/'] then some (Message.connect (jsParseInt d)) else none

/-- Recognizer of `^\/close\/(\d+)\/$`. -/
def tryClose (l : List Char) : Option Message :=
  match stripPfx closePfx l with
  | none => none
  | some r =>
    match parseNum r with
    | none => none
    | some (d, r2) =>
      if r2 = ['/'] then some (Message.close (jsParseInt d)) else none

/-- Recognizer of `^\/data\/(\d+)\/(\d+)\/(.*)\/$` (with `s` flag): the two
digit groups are forced maximal runs each followed by a slash; the greedy
`(.*)` takes everything up to the final character, which must be a slash.
The captured payload must pass isDataValid and is then unescaped. -/
def tryData (l : List Char) : Option Message :=
  match stripPfx dataPfx l with
  | none => none
  | some r =>
    match parseNum r with
    | none => none
    | some (d1, r1) =>
      match expectSlash r1 with
      | none => none
      | some r2 =>
        match parseNum r2 with
        | none => none
        | some (d2, r3) =>
          match expectSlash r3 with
          | none => none
          | some r4 =>
            match r4.getLast? with
            | none => none
            | some c =>
              if c = '/' then
                if isDataValid r4.dropLast then
                  some (Message.data (jsParseInt d1) (jsParseInt d2)
                    (unescapeData r4.dropLast))
                else none
              else none

/-- Recognizer of `^\/ack\/(\d+)\/(\d+)\/$`. -/
def tryAck (l : List Char) : Option Message :=
  match stripPfx ackPfx l with
  | none => none
  | some r =>
    match parseNum r with
    | none => none
    | some (d1, r1) =>
      match expectSlash r1 with
      | none => none
      | some r2 =>
        match parseNum r2 with
        | none => none
        | some (d2, r3) =>
          if r3 = ['/'] then
            some (Message.ack (jsParseInt d1) (jsParseInt d2))
          else none

/-- parseMsg: reject frames of 1000 bytes or more, then try the four
message patterns in the order of the source. -/
def parseMsg (l : List Char) : Option Message :=
  if 1000 ≤ l.length then none
  else
    match tryConnect l with
    | some m => some m
    | none =>
      match tryClose l with
      | some m => some m
      | none =>
        match tryData l with
        | some m => some m
        | none => tryAck l

/-- Encoder of each wire message kind, as in the source: `_data` and `_ack`
on the Session, the template literals of `sendClose` and of the client-side
connect frame. -/
def encodeMsg : Message → List Char
  | .connect id => connectMsg id
  | .close id => closeMsg id
  | .data id pos d => dataMsg id pos d
  | .ack id n => ackMsg id n

/-- Validity bound of the numeric fields: non-negative integers that the
implementation's number type represents exactly (JS numbers are binary64,
exact on [0, 2^53]). -/
def fieldsExact : Message → Prop
  | .connect id => id ≤ 2 ^ 53
  | .close id => id ≤ 2 ^ 53
  | .data id pos _ => id ≤ 2 ^ 53 ∧ pos ≤ 2 ^ 53
  | .ack id n => id ≤ 2 ^ 53 ∧ n ≤ 2 ^ 53

/-- LineReader.readLine: the chars before the first line feed and the
remainder after it (`indexOf(0x0a)`, read that many chars, discard the
separator); `none` when no line feed is buffered.  No carriage-return
handling appears in the source. -/
def readLine : List Char → Option (List Char × List Char)
  | [] => none
  | c :: rest =>
    if c = '\n' then some ([], rest)
    else
      match readLine rest with
      | none => none
      | some p => some (c :: p.1, p.2)

/-- Drain of the `while ((line = readLine()) != null)` loop: all complete
records and the leftover buffer.  The fuel argument only forces structural
termination; `readLine` consumes at least one character per record, so a
fuel equal to the buffer length never runs out (hypotheses in the lemmas
below). -/
def extractAux : Nat → List Char → List (List Char) × List Char
  | 0, b => ([], b)
  | fuel + 1, b =>
    match readLine b with
    | none => ([], b)
    | some (l, r) =>
      let p := extractAux fuel r
      (l :: p.1, p.2)

/-- All complete records extractable from a buffer, and the leftover. -/
def extractRecords (b : List Char) : List (List Char) × List Char :=
  extractAux b.length b

/-- Session state: the fields of the Session class, with the LineReader
reduced to its buffered bytes, the pending consumer reduced to the flag
whether one is waiting, and the armed timers listed explicitly (a
retransmission interval and an expiry timeout both capture the encoded
message and/or the `newSendLength` of their segment). -/
structure SessionState where
  queue : List (List Char)
  pendingResolver : Bool
  closed : Bool
  sessionId : Nat
  sendLength : Nat
  sendDataMsgs : List (List Char × Nat)
  readPos : Nat
  lineBuf : List Char
  maxAckLength : Nat
  intervals : List (List Char × Nat)
  expiries : List Nat
deriving DecidableEq, Repr

/-- Freshly constructed Session. -/
def newSession (id : Nat) : SessionState :=
  { queue := [], pendingResolver := false, closed := false, sessionId := id
    sendLength := 0, sendDataMsgs := [], readPos := 0, lineBuf := []
    maxAckLength := 0, intervals := [], expiries := [] }

/-- Session._close: set the closed flag, resolve a pending consumer with
end-of-stream, clear the queue.  Note that no datagram is sent and no timer
is cancelled here. -/
def closeS (σ : SessionState) : SessionState :=
  { σ with closed := true, pendingResolver := false, queue := [] }

/-- Session._onLine: hand the record to a waiting consumer, else enqueue. -/
def onLine (σ : SessionState) (line : List Char) : SessionState :=
  if σ.pendingResolver then { σ with pendingResolver := false }
  else { σ with queue := σ.queue ++ [line] }

/-- Fold of `_onLine` over the records drained from the LineReader. -/
def feedLines : SessionState → List (List Char) → SessionState
  | σ, [] => σ
  | σ, l :: rest => feedLines (onLine σ l) rest

/-- Session._onData: in-order data advances `readPos`, acks the new
position and feeds the bytes through the LineReader; any other position
only acks the current `readPos` and changes nothing. -/
def onData (σ : SessionState) (pos : Nat) (d : List Char) :
    SessionState × List (List Char) :=
  if σ.readPos = pos then
    let newPos := σ.readPos + d.length
    let buf := σ.lineBuf ++ d
    let p := extractRecords buf
    (feedLines { σ with readPos := newPos, lineBuf := p.2 } p.1,
     [ackMsg σ.sessionId newPos])
  else (σ, [ackMsg σ.sessionId σ.readPos])

/-- Retransmission scan of `_onAck`: walk the buffered segments keeping a
running cumulative position, resending every message whose cumulative end
exceeds the acknowledged length. -/
def retransAcc : List (List Char × Nat) → Nat → Nat → List (List Char)
  | [], _, _ => []
  | m :: rest, pos, n =>
    let pos2 := pos + m.2
    (if n < pos2 then [m.1] else []) ++ retransAcc rest pos2 n

/-- Session._onAck: stale acks are ignored; otherwise `maxAckLength` is
raised first, then an ack beyond `sendLength` closes the session, a full
ack is silent, and a partial ack triggers retransmission. -/
def onAck (σ : SessionState) (n : Nat) : SessionState × List (List Char) :=
  if n ≤ σ.maxAckLength then (σ, [])
  else
    let σ1 := { σ with maxAckLength := n }
    if σ1.sendLength < n then (closeS σ1, [])
    else if n = σ1.sendLength then (σ1, [])
    else (σ1, retransAcc σ1.sendDataMsgs 0 n)

/-- Session._data: encode one chunk at the current `sendLength`, record it
for retransmission, send it, and arm one retransmission interval and one
expiry timeout for it.  The source also asserts that the encoded frame is
at most 999 bytes; that assertion is analysed separately and is not
modelled as a crash here. -/
def dataStep (σ : SessionState) (d : List Char) :
    SessionState × List (List Char) :=
  let msg := dataMsg σ.sessionId σ.sendLength d
  let nsl := σ.sendLength + d.length
  ({ σ with sendLength := nsl
            sendDataMsgs := σ.sendDataMsgs ++ [(msg, d.length)]
            intervals := σ.intervals ++ [(msg, nsl)]
            expiries := σ.expiries ++ [nsl] },
   [msg])

/-- Chunking loop of Session.write: slices of at most 950 raw bytes (the
fuel argument only forces structural termination). -/
def writeChunksAux : Nat → List Char → List (List Char)
  | 0, s => [s]
  | fuel + 1, s =>
    if 950 < s.length then s.take 950 :: writeChunksAux fuel (s.drop 950)
    else [s]

/-- Chunks produced by Session.write for a payload. -/
def writeChunks (s : List Char) : List (List Char) := writeChunksAux s.length s

/-- Sequential `_data` sends of a list of chunks. -/
def sendAll : SessionState → List (List Char) → SessionState × List (List Char)
  | σ, [] => (σ, [])
  | σ, c :: rest =>
    let r := dataStep σ c
    let r2 := sendAll r.1 rest
    (r2.1, r.2 ++ r2.2)

/-- Session.write: split the payload into chunks of at most 950 bytes and
send each as one DATA message. -/
def writeS (σ : SessionState) (s : List Char) :
    SessionState × List (List Char) :=
  sendAll σ (writeChunks s)

/-- Firing of the retransmission interval armed for a segment (`k` indexes
the armed intervals): re-read `maxAckLength`; if the segment is still not
covered resend the identical bytes, otherwise clear the interval.  Out of
range indices fire nothing. -/
def tickStep (σ : SessionState) (k : Nat) :
    SessionState × List (List Char) :=
  match σ.intervals[k]? with
  | none => (σ, [])
  | some iv =>
    if σ.maxAckLength < iv.2 then (σ, [iv.1])
    else ({ σ with intervals := σ.intervals.eraseIdx k }, [])

/-- Firing of the one-shot expiry timeout armed for a segment: the timeout
is spent either way; if the segment is still not covered the session is
closed (nothing is sent). -/
def expireStep (σ : SessionState) (k : Nat) :
    SessionState × List (List Char) :=
  match σ.expiries[k]? with
  | none => (σ, [])
  | some nsl =>
    let σ1 := { σ with expiries := σ.expiries.eraseIdx k }
    if σ1.maxAckLength < nsl then (closeS σ1, []) else (σ1, [])

/-- One session-level event: an application write, an inbound DATA or ACK
datagram handled by the dispatcher for this session, or the firing of one
armed timer. -/
inductive SStep where
  | write (s : List Char)
  | onData (pos : Nat) (d : List Char)
  | onAck (n : Nat)
  | tick (k : Nat)
  | expire (k : Nat)
deriving DecidableEq, Repr

/-- Dispatch of one session-level event. -/
def stepFn (σ : SessionState) : SStep → SessionState × List (List Char)
  | .write s => writeS σ s
  | .onData pos d => onData σ pos d
  | .onAck n => onAck σ n
  | .tick k => tickStep σ k
  | .expire k => expireStep σ k

/-- State after a sequence of session-level events. -/
def runSteps : SessionState → List SStep → SessionState
  | σ, [] => σ
  | σ, s :: rest => runSteps (stepFn σ s).1 rest

/-- Server state: the Session objects ever constructed (JS object
references become indices into this store — timers and the application
keep referencing an object even after the registry drops it) and the
`sessions` map from session id to object. -/
structure ServerState where
  store : List SessionState
  reg : List (Nat × Nat)
deriving DecidableEq, Repr

def initServer : ServerState := { store := [], reg := [] }

/-- Map.get of the sessions registry. -/
def regGet : List (Nat × Nat) → Nat → Option Nat
  | [], _ => none
  | p :: rest, id => if p.1 = id then some p.2 else regGet rest id

/-- Map.set of the sessions registry (replace or append; keys unique). -/
def regSet : List (Nat × Nat) → Nat → Nat → List (Nat × Nat)
  | [], id, v => [(id, v)]
  | p :: rest, id, v =>
    if p.1 = id then (id, v) :: rest else p :: regSet rest id v

/-- Map.delete of the sessions registry (keys are unique, so dropping every
binding of the id models deleting the single one). -/
def regDel (reg : List (Nat × Nat)) (id : Nat) : List (Nat × Nat) :=
  reg.filter fun p => p.1 ≠ id

/-- The dispatcher of `createLRCPServer`, one datagram already decoded:
CONNECT reuses a live session or constructs a fresh one and acks position
0; DATA and ACK for a live session run the session handlers (an ACK that
closed the session is answered with a CLOSE); DATA and ACK for an unknown
or closed id are answered with a CLOSE; CLOSE is answered with a CLOSE and
the id is dropped from the registry — the Session object itself is not
touched. -/
def handleMsg (st : ServerState) : Message → ServerState × List (List Char)
  | .connect id =>
    match regGet st.reg id with
    | some i =>
      match st.store[i]? with
      | some σ =>
        if σ.closed then
          ({ store := st.store ++ [newSession id]
             reg := regSet st.reg id st.store.length }, [ackMsg id 0])
        else (st, [ackMsg id 0])
      | none => (st, [])
    | none =>
      ({ store := st.store ++ [newSession id]
         reg := regSet st.reg id st.store.length }, [ackMsg id 0])
  | .data id pos d =>
    match regGet st.reg id with
    | some i =>
      match st.store[i]? with
      | some σ =>
        if σ.closed then (st, [closeMsg id])
        else
          let r := onData σ pos d
          ({ st with store := st.store.set i r.1 }, r.2)
      | none => (st, [closeMsg id])
    | none => (st, [closeMsg id])
  | .ack id n =>
    match regGet st.reg id with
    | some i =>
      match st.store[i]? with
      | some σ =>
        if σ.closed then (st, [closeMsg id])
        else
          let r := onAck σ n
          ({ st with store := st.store.set i r.1 },
           r.2 ++ if r.1.closed then [closeMsg id] else [])
      | none => (st, [closeMsg id])
    | none => (st, [closeMsg id])
  | .close id =>
    ({ st with reg := regDel st.reg id }, [closeMsg id])

/-- One raw datagram: invalid frames are dropped silently. -/
def handleDatagram (st : ServerState) (raw : List Char) :
    ServerState × List (List Char) :=
  match parseMsg raw with
  | none => (st, [])
  | some m => handleMsg st m

/-- Application write on a session handle (a store reference). -/
def appWrite (st : ServerState) (i : Nat) (s : List Char) :
    ServerState × List (List Char) :=
  match st.store[i]? with
  | none => (st, [])
  | some σ =>
    let r := writeS σ s
    ({ st with store := st.store.set i r.1 }, r.2)

/-- Wire frame `/connect/9007199254740992/`. -/
def c10frameA : List Char :=
  connectPfx ++ ['9', '0', '0', '7', '1', '9', '9', '2', '5', '4', '7',
    '4', '0', '9', '9', '2', '/']

/-- Wire frame `/connect/9007199254740993/`. -/
def c10frameB : List Char :=
  connectPfx ++ ['9', '0', '0', '7', '1', '9', '9', '2', '5', '4', '7',
    '4', '0', '9', '9', '3', '/']

/-- Session after a fresh construction and one application write of two
bytes: one segment buffered, one interval and one expiry armed. -/
def sessionAfterHi : SessionState := (writeS (newSession 1) ['h', 'i']).1

/-- The same session after its expiry timeout fired unacknowledged: closed,
with the retransmission interval still armed. -/
def sessionClosedByExpiry : SessionState := (expireStep sessionAfterHi 0).1

/-- Server state after CONNECT(1), an application write of two bytes on the
new session, and an inbound CLOSE(1). -/
def c5state : ServerState :=
  (handleMsg
    (appWrite (handleMsg initServer (Message.connect 1)).1 0 ['h', 'i']).1
    (Message.close 1)).1

theorem ra2_nil (a b : Char) (out : List Char) :
    replaceAll2 a b out [] = [] := by
  simp [replaceAll2]

theorem ra2_single (a b c : Char) (out : List Char) :
    replaceAll2 a b out [c] = [c] := by
  simp [replaceAll2]

theorem ra2_pair (a b : Char) (out l : List Char) :
    replaceAll2 a b out (a :: b :: l) = out ++ replaceAll2 a b out l := by
  rw [replaceAll2]
  simp

theorem ra2_cons_ne (a b c : Char) (out l : List Char) (h : c ≠ a) :
    replaceAll2 a b out (c :: l) = c :: replaceAll2 a b out l := by
  cases l with
  | nil => simp [replaceAll2]
  | cons d rest =>
    rw [replaceAll2, if_neg]
    intro hc
    exact h hc.1

theorem ra2_cons2_ne (a b c d : Char) (out l : List Char) (h : d ≠ b) :
    replaceAll2 a b out (c :: d :: l) = c :: replaceAll2 a b out (d :: l) := by
  rw [replaceAll2, if_neg]
  intro hc
  exact h hc.2

theorem escapeData_nil : escapeData [] = [] := rfl

theorem escapeData_cons_bs (l : List Char) :
    escapeData ('\\' :: l) = '\\' :: '\\' :: escapeData l := by
  simp [escapeData, sub1, sub2]

theorem escapeData_cons_slash (l : List Char) :
    escapeData ('/' :: l) = '\\' :: '/' :: escapeData l := by
  simp [escapeData, sub1, sub2]

theorem escapeData_cons_other (c : Char) (l : List Char) (h1 : c ≠ '\\')
    (h2 : c ≠ '/') : escapeData (c :: l) = c :: escapeData l := by
  simp [escapeData, sub1, sub2, h1, h2]

theorem usub1_escape (l : List Char) :
    replaceAll2 '\\' '\\' ['\\'] (escapeData l) =
      l.flatMap fun c => if c = '/' then ['\\', '/'] else [c] := by
  induction l with
  | nil => rw [escapeData_nil, ra2_nil, List.flatMap_nil]
  | cons c l ih =>
    rw [List.flatMap_cons]
    by_cases h1 : c = '\\'
    · subst h1
      rw [escapeData_cons_bs, ra2_pair, ih]
      rfl
    · by_cases h2 : c = '/'
      · subst h2
        rw [escapeData_cons_slash, ra2_cons2_ne _ _ _ _ _ _ (by decide),
            ra2_cons_ne _ _ _ _ _ (by decide), ih]
        rfl
      · rw [escapeData_cons_other c l h1 h2, ra2_cons_ne _ _ _ _ _ h1, ih,
            if_neg h2]
        rfl

theorem half_head (l : List Char) :
    (l.flatMap fun c => if c = '/' then ['\\', '/'] else [c]) = [] ∨
      ∃ c t, (l.flatMap fun c => if c = '/' then ['\\', '/'] else [c]) = c :: t
        ∧ c ≠ '/' := by
  induction l with
  | nil => exact Or.inl rfl
  | cons c l _ =>
    right
    rw [List.flatMap_cons]
    by_cases h : c = '/'
    · subst h
      refine ⟨'\\', '/' :: l.flatMap fun c => if c = '/' then ['\\', '/'] else [c],
        ?_, by decide⟩
      simp
    · refine ⟨c, l.flatMap fun c => if c = '/' then ['\\', '/'] else [c],
        ?_, h⟩
      simp [h]

theorem usub2_half (l : List Char) :
    replaceAll2 '\\' '/' ['/']
      (l.flatMap fun c => if c = '/' then ['\\', '/'] else [c]) = l := by
  induction l with
  | nil => rw [List.flatMap_nil, ra2_nil]
  | cons c l ih =>
    rw [List.flatMap_cons]
    by_cases h : c = '/'
    · subst h
      simp only [List.cons_append, List.nil_append, reduceIte]
      rw [ra2_pair, ih]
      rfl
    · rw [if_neg h]
      simp only [List.cons_append, List.nil_append]
      by_cases hb : c = '\\'
      · subst hb
        rcases half_head l with he | ⟨d, t, ht, hd⟩
        · rw [he] at ih ⊢
          rw [ra2_nil] at ih
          rw [ra2_single, ← ih]
        · rw [ht] at ih ⊢
          rw [ra2_cons2_ne _ _ _ _ _ _ hd, ih]
      · rw [ra2_cons_ne _ _ _ _ _ hb, ih]

theorem unescape_escape (l : List Char) :
    unescapeData (escapeData l) = l := by
  rw [unescapeData, usub1_escape, usub2_half]

theorem rem1_escape (l : List Char) :
    replaceAll2 '\\' '\\' [] (escapeData l) =
      l.flatMap fun c =>
        if c = '/' then ['\\', '/'] else if c = '\\' then [] else [c] := by
  induction l with
  | nil => rw [escapeData_nil, ra2_nil, List.flatMap_nil]
  | cons c l ih =>
    rw [List.flatMap_cons]
    by_cases h1 : c = '\\'
    · subst h1
      rw [escapeData_cons_bs, ra2_pair, ih]
      rfl
    · by_cases h2 : c = '/'
      · subst h2
        rw [escapeData_cons_slash, ra2_cons2_ne _ _ _ _ _ _ (by decide),
            ra2_cons_ne _ _ _ _ _ (by decide), ih]
        rfl
      · rw [escapeData_cons_other c l h1 h2, ra2_cons_ne _ _ _ _ _ h1, ih,
            if_neg h2, if_neg h1]
        rfl

theorem rem2_rem1_escape (l : List Char) :
    replaceAll2 '\\' '/' []
      (l.flatMap fun c =>
        if c = '/' then ['\\', '/'] else if c = '\\' then [] else [c]) =
      cleanse l := by
  induction l with
  | nil => rw [List.flatMap_nil, ra2_nil, cleanse]
  | cons c l ih =>
    rw [List.flatMap_cons, cleanse]
    by_cases h2 : c = '/'
    · subst h2
      rw [if_pos rfl, if_pos (Or.inl rfl)]
      simp only [List.cons_append, List.nil_append]
      rw [ra2_pair, ih]
      rfl
    · by_cases h1 : c = '\\'
      · subst h1
        rw [if_neg (by decide), if_pos rfl, if_pos (Or.inr rfl)]
        simpa using ih
      · rw [if_neg h2, if_neg h1, if_neg (by tauto)]
        simp only [List.cons_append, List.nil_append]
        rw [ra2_cons_ne _ _ _ _ _ h1, ih]

theorem cleanse_contains (l : List Char) :
    (cleanse l).contains '/' = false ∧ (cleanse l).contains '\\' = false := by
  induction l with
  | nil => exact ⟨rfl, rfl⟩
  | cons c l ih =>
    rw [cleanse]
    by_cases h : c = '/' ∨ c = '\\'
    · rw [if_pos h]
      exact ih
    · rw [if_neg h]
      push_neg at h
      constructor
      · rw [List.contains_cons, ih.1]
        simp [Ne.symm h.1]
      · rw [List.contains_cons, ih.2]
        simp [Ne.symm h.2]

theorem isDataValid_escape (l : List Char) :
    isDataValid (escapeData l) = true := by
  rw [isDataValid]
  simp only [rem1_escape, rem2_rem1_escape]
  rw [(cleanse_contains l).1, (cleanse_contains l).2]
  rfl

/-- C3: for every payload byte sequence `p`, unescaping the escape of `p`
gives back `p`, and the escape of `p` passes the decoder's well-escapedness
check (after removing the two-character escape sequences `\\` and `\/`, no
`/` and no `\` remains, i.e. every occurrence of either character in the
escaped output is part of a two-character escape sequence). -/
theorem C3_escape_roundtrip (p : List Char) :
    unescapeData (escapeData p) = p ∧ isDataValid (escapeData p) = true :=
  ⟨unescape_escape p, isDataValid_escape p⟩

theorem ntdAux_fuel (f1 : Nat) : ∀ f2 n acc, n < f1 → n < f2 →
    natToDigitsAux f1 n acc = natToDigitsAux f2 n acc := by
  induction f1 with
  | zero => intro f2 n acc h _; omega
  | succ f1 ih =>
    intro f2 n acc h1 h2
    cases f2 with
    | zero => omega
    | succ f2 =>
      rw [natToDigitsAux, natToDigitsAux]
      by_cases h : n < 10
      · rw [if_pos h, if_pos h]
      · rw [if_neg h, if_neg h]
        have hd : n / 10 < n := Nat.div_lt_self (by omega) (by omega)
        exact ih f2 (n / 10) _ (by omega) (by omega)

theorem ntdAux_acc (f : Nat) : ∀ n acc, n < f →
    natToDigitsAux f n acc = natToDigitsAux f n [] ++ acc := by
  induction f with
  | zero => intro n acc h; omega
  | succ f ih =>
    intro n acc h
    rw [natToDigitsAux, natToDigitsAux]
    by_cases h10 : n < 10
    · rw [if_pos h10, if_pos h10]; rfl
    · rw [if_neg h10, if_neg h10]
      have hd : n / 10 < n := Nat.div_lt_self (by omega) (by omega)
      rw [ih (n / 10) _ (by omega), ih (n / 10) [digitChar (n % 10)] (by omega),
          List.append_assoc]
      rfl

theorem natToDigits_small (n : Nat) (h : n < 10) :
    natToDigits n = [digitChar n] := by
  rw [natToDigits, natToDigitsAux, if_pos h]

theorem natToDigits_big (n : Nat) (h : 10 ≤ n) :
    natToDigits n = natToDigits (n / 10) ++ [digitChar (n % 10)] := by
  have hd : n / 10 < n := Nat.div_lt_self (by omega) (by omega)
  rw [natToDigits, natToDigitsAux, if_neg (by omega)]
  rw [ntdAux_fuel n (n / 10 + 1) (n / 10) _ hd (by omega)]
  rw [ntdAux_acc (n / 10 + 1) (n / 10) _ (by omega)]
  rw [natToDigits]

theorem digitChar_isDigit (m : Nat) : (digitChar m).isDigit = true := by
  rw [digitChar]
  repeat' split
  all_goals decide

theorem digitChar_toNat (m : Nat) (h : m < 10) : (digitChar m).toNat - 48 = m := by
  interval_cases m <;> decide

theorem natOfDigits_singleton (c : Char) : natOfDigits [c] = c.toNat - 48 := by
  simp [natOfDigits]

theorem natOfDigits_snoc (l : List Char) (c : Char) :
    natOfDigits (l ++ [c]) = 10 * natOfDigits l + (c.toNat - 48) := by
  simp [natOfDigits, List.foldl_append]

theorem natOfDigits_natToDigits (n : Nat) :
    natOfDigits (natToDigits n) = n := by
  induction n using Nat.strong_induction_on with
  | _ n ih =>
    by_cases h : n < 10
    · rw [natToDigits_small n h, natOfDigits_singleton]
      exact digitChar_toNat n h
    · rw [natToDigits_big n (by omega), natOfDigits_snoc,
          ih (n / 10) (Nat.div_lt_self (by omega) (by omega)),
          digitChar_toNat (n % 10) (Nat.mod_lt n (by omega))]
      omega

theorem natToDigits_ne_nil (n : Nat) : natToDigits n ≠ [] := by
  by_cases h : n < 10
  · rw [natToDigits_small n h]; simp
  · rw [natToDigits_big n (by omega)]; simp

theorem natToDigits_isDigit (n : Nat) :
    ∀ c ∈ natToDigits n, c.isDigit = true := by
  induction n using Nat.strong_induction_on with
  | _ n ih =>
    by_cases h : n < 10
    · rw [natToDigits_small n h]
      intro c hc
      rw [List.mem_singleton] at hc
      subst hc
      exact digitChar_isDigit n
    · rw [natToDigits_big n (by omega)]
      intro c hc
      rcases List.mem_append.mp hc with h1 | h1
      · exact ih (n / 10) (Nat.div_lt_self (by omega) (by omega)) c h1
      · rw [List.mem_singleton] at h1
        subst h1
        exact digitChar_isDigit _

theorem roundF64_id (n : Nat) (h : n ≤ 2 ^ 53) : roundF64 n = n := by
  rw [roundF64, if_pos h]

theorem jsParseInt_natToDigits (n : Nat) (h : n ≤ 2 ^ 53) :
    jsParseInt (natToDigits n) = n := by
  rw [jsParseInt, natOfDigits_natToDigits]
  exact roundF64_id n h

theorem digitSpan_slash (D r : List Char) (hD : ∀ c ∈ D, c.isDigit = true) :
    digitSpan (D ++ '/' :: r) = (D, '/' :: r) := by
  induction D with
  | nil =>
    rw [List.nil_append, digitSpan, if_neg (by decide)]
  | cons c D ih =>
    rw [List.cons_append, digitSpan, if_pos (hD c (List.mem_cons_self c D)),
        ih fun x hx => hD x (List.mem_cons_of_mem c hx)]

theorem parseNum_digits (D r : List Char) (hD : ∀ c ∈ D, c.isDigit = true)
    (hne : D ≠ []) : parseNum (D ++ '/' :: r) = some (D, '/' :: r) := by
  unfold parseNum
  rw [digitSpan_slash D r hD]
  simp [hne]

theorem stripPfx_self (p r : List Char) : stripPfx p (p ++ r) = some r := by
  induction p with
  | nil => rfl
  | cons c p ih =>
    rw [List.cons_append, stripPfx, if_pos rfl]
    exact ih

theorem tryConnect_encode (id : Nat) (h : id ≤ 2 ^ 53) :
    tryConnect (connectMsg id) = some (Message.connect id) := by
  unfold tryConnect connectMsg
  rw [stripPfx_self]
  dsimp only
  rw [parseNum_digits (natToDigits id) [] (natToDigits_isDigit id) (natToDigits_ne_nil id)]
  dsimp only
  rw [if_pos rfl, jsParseInt_natToDigits id h]


theorem expectSlash_slash (r : List Char) : expectSlash ('/' :: r) = some r := rfl

theorem tryConnect_close (id : Nat) : tryConnect (closeMsg id) = none := rfl

theorem tryConnect_data (id pos : Nat) (d : List Char) :
    tryConnect (dataMsg id pos d) = none := rfl

theorem tryConnect_ack (id pos : Nat) : tryConnect (ackMsg id pos) = none := rfl

theorem tryClose_data (id pos : Nat) (d : List Char) :
    tryClose (dataMsg id pos d) = none := rfl

theorem tryClose_ack (id pos : Nat) : tryClose (ackMsg id pos) = none := rfl

theorem tryData_ack (id pos : Nat) : tryData (ackMsg id pos) = none := rfl

theorem tryClose_encode (id : Nat) (h : id ≤ 2 ^ 53) :
    tryClose (closeMsg id) = some (Message.close id) := by
  unfold tryClose closeMsg
  rw [stripPfx_self]
  dsimp only
  rw [parseNum_digits (natToDigits id) [] (natToDigits_isDigit id)
    (natToDigits_ne_nil id)]
  dsimp only
  rw [if_pos rfl, jsParseInt_natToDigits id h]

theorem tryAck_encode (id pos : Nat) (hid : id ≤ 2 ^ 53) (hpos : pos ≤ 2 ^ 53) :
    tryAck (ackMsg id pos) = some (Message.ack id pos) := by
  unfold tryAck ackMsg
  rw [stripPfx_self]
  dsimp only
  rw [parseNum_digits (natToDigits id) (natToDigits pos ++ ['/'])
    (natToDigits_isDigit id) (natToDigits_ne_nil id)]
  dsimp only
  rw [expectSlash_slash]
  dsimp only
  rw [parseNum_digits (natToDigits pos) [] (natToDigits_isDigit pos)
    (natToDigits_ne_nil pos)]
  dsimp only
  rw [if_pos rfl, jsParseInt_natToDigits id hid, jsParseInt_natToDigits pos hpos]

theorem tryData_encode (id pos : Nat) (d : List Char) (hid : id ≤ 2 ^ 53)
    (hpos : pos ≤ 2 ^ 53) :
    tryData (dataMsg id pos d) = some (Message.data id pos d) := by
  unfold tryData dataMsg
  rw [stripPfx_self]
  dsimp only
  rw [parseNum_digits (natToDigits id)
    (natToDigits pos ++ '/' :: (escapeData d ++ ['/']))
    (natToDigits_isDigit id) (natToDigits_ne_nil id)]
  dsimp only
  rw [expectSlash_slash]
  dsimp only
  rw [parseNum_digits (natToDigits pos) (escapeData d ++ ['/'])
    (natToDigits_isDigit pos) (natToDigits_ne_nil pos)]
  dsimp only
  rw [expectSlash_slash]
  dsimp only
  rw [List.getLast?_concat]
  dsimp only
  rw [if_pos rfl, List.dropLast_concat, isDataValid_escape]
  rw [if_pos rfl, unescape_escape, jsParseInt_natToDigits id hid,
    jsParseInt_natToDigits pos hpos]


theorem C2_roundtrip (m : Message) (h1 : fieldsExact m)
    (h2 : (encodeMsg m).length < 1000) :
    parseMsg (encodeMsg m) = some m := by
  cases m with
  | connect id =>
    unfold parseMsg
    rw [if_neg (by omega)]
    dsimp only [encodeMsg] at h2 ⊢
    rw [tryConnect_encode id h1]
  | close id =>
    unfold parseMsg
    rw [if_neg (by omega)]
    dsimp only [encodeMsg] at h2 ⊢
    rw [tryConnect_close id]
    dsimp only
    rw [tryClose_encode id h1]
  | data id pos d =>
    unfold parseMsg
    rw [if_neg (by omega)]
    dsimp only [encodeMsg] at h2 ⊢
    rw [tryConnect_data id pos d]
    dsimp only
    rw [tryClose_data id pos d]
    dsimp only
    rw [tryData_encode id pos d h1.1 h1.2]
  | ack id n =>
    unfold parseMsg
    rw [if_neg (by omega)]
    dsimp only [encodeMsg] at h2 ⊢
    rw [tryConnect_ack id n]
    dsimp only
    rw [tryClose_ack id n]
    dsimp only
    rw [tryData_ack id n]
    dsimp only
    rw [tryAck_encode id n h1.1 h1.2]

theorem C2_roundtrip_witness :
    fieldsExact (Message.ack 1 2) ∧ (encodeMsg (Message.ack 1 2)).length < 1000 ∧
      parseMsg (encodeMsg (Message.ack 1 2)) = some (Message.ack 1 2) :=
  ⟨⟨by decide, by decide⟩, by decide,
    C2_roundtrip (Message.ack 1 2) ⟨by decide, by decide⟩ (by decide)⟩


/-- C1 (code bug): the sizing argument fails.  `write` keeps a 950-byte
payload of `/` characters as a single chunk, yet the frame `_data` builds
for it on a fresh session (id 0, offset 0) is 1911 bytes — far above the
999-byte bound of the encode-side assertion `msg.length <= LrcpMaxLength`,
which therefore fires: worst-case escaping doubles the payload, so the
950-byte chunk cap does not keep frames under the 1000-byte ceiling. -/
theorem escapeData_replicate_slash_length (n : Nat) :
    (escapeData (List.replicate n '/')).length = 2 * n := by
  induction n with
  | zero => rfl
  | succ n ih =>
    rw [List.replicate_succ, escapeData_cons_slash]
    simp only [List.length_cons, ih]
    omega

theorem C1_chunk_overflow :
    writeChunks (List.replicate 950 '/') = [List.replicate 950 '/'] ∧
      999 < (dataMsg 0 0 (List.replicate 950 '/')).length := by
  constructor
  · rw [writeChunks, List.length_replicate]
    rw [show (950 : Nat) = Nat.succ 949 from rfl]
    rw [writeChunksAux.eq_2, if_neg (by rw [List.length_replicate]; omega)]
  · have h0 : natToDigits 0 = [digitChar 0] := natToDigits_small 0 (by omega)
    rw [dataMsg, h0]
    simp only [dataPfx, List.length_append, List.length_cons, List.length_nil,
      escapeData_replicate_slash_length]
    omega

/-- C10: decoding bounds no integer field: the distinct CONNECT frames
`/connect/9007199254740992/` and `/connect/9007199254740993/` (both far
under the 1000-byte frame limit) decode to the same session id, because
parseInt rounds 2^53 + 1 to the nearest binary64 value 2^53; the dispatcher
therefore demultiplexes the two client-chosen ids onto a single Session:
after both datagrams exactly one Session object exists. -/
theorem C10_parseInt_collision :
    c10frameA ≠ c10frameB ∧
      parseMsg c10frameA = some (Message.connect 9007199254740992) ∧
      parseMsg c10frameB = some (Message.connect 9007199254740992) ∧
      (handleDatagram (handleDatagram initServer c10frameA).1
        c10frameB).1.store.length = 1 :=
  ⟨by decide, by decide, by decide, by decide⟩

theorem readLine_none (b : List Char) : readLine b = none → '\n' ∉ b := by
  induction b with
  | nil => intro _; simp
  | cons c rest ih =>
    intro h
    rw [readLine] at h
    by_cases hc : c = '\n'
    · rw [if_pos hc] at h
      cases h
    · rw [if_neg hc] at h
      cases hr : readLine rest with
      | none =>
        intro hmem
        rcases List.mem_cons.mp hmem with h1 | h1
        · exact hc h1.symm
        · exact ih hr h1
      | some p =>
        rw [hr] at h
        cases h

theorem readLine_some (b : List Char) : ∀ l r,
    readLine b = some (l, r) → b = l ++ '\n' :: r ∧ '\n' ∉ l := by
  induction b with
  | nil => intro l r h; cases h
  | cons c rest ih =>
    intro l r h
    rw [readLine] at h
    by_cases hc : c = '\n'
    · rw [if_pos hc] at h
      injection h with h2
      cases h2
      subst hc
      exact ⟨rfl, by simp⟩
    · rw [if_neg hc] at h
      cases hr : readLine rest with
      | none =>
        rw [hr] at h
        cases h
      | some p =>
        rw [hr] at h
        injection h with h2
        obtain ⟨hp1, hp2⟩ := ih p.1 p.2 (by rw [hr])
        cases h2
        constructor
        · rw [List.cons_append, ← hp1]
        · intro hmem
          rcases List.mem_cons.mp hmem with h1 | h1
          · exact hc h1.symm
          · exact hp2 h1

theorem extractAux_spec : ∀ fuel b, b.length ≤ fuel →
    b = (extractAux fuel b).1.flatMap (fun r => r ++ ['\n']) ++
        (extractAux fuel b).2 ∧
      (∀ r ∈ (extractAux fuel b).1, '\n' ∉ r) ∧
      '\n' ∉ (extractAux fuel b).2 := by
  intro fuel
  induction fuel with
  | zero =>
    intro b hb
    have hb0 : b = [] := List.eq_nil_of_length_eq_zero (by omega)
    subst hb0
    refine ⟨rfl, ?_, ?_⟩
    · intro r hrr
      simp [extractAux] at hrr
    · intro h
      simp [extractAux] at h
  | succ fuel ih =>
    intro b hb
    rw [extractAux]
    cases hr : readLine b with
    | none =>
      dsimp only
      exact ⟨by simp, by simp, readLine_none b hr⟩
    | some p =>
      dsimp only
      obtain ⟨hstruct, hnl⟩ := readLine_some b p.1 p.2 (by rw [hr])
      have hlen : p.2.length < b.length := by
        rw [hstruct]
        simp
        omega
      obtain ⟨ih1, ih2, ih3⟩ := ih p.2 (by omega)
      refine ⟨?_, ?_, ih3⟩
      · rw [List.flatMap_cons, hstruct]
        conv_lhs => rw [ih1]
        simp
      · intro r hrr
        rcases List.mem_cons.mp hrr with h1 | h1
        · subst h1
          exact hnl
        · exact ih2 r h1

/-- C9 (amended): every complete record the bridge extracts consists of
exactly the bytes up to (excluding) the next line-feed byte — the buffer
decomposes into the records each followed by one line feed, plus a
line-feed-free remainder, and no record contains a line feed.  Carriage
returns are NOT stripped (see the counterexample). -/
theorem C9_records (b : List Char) :
    b = (extractRecords b).1.flatMap (fun r => r ++ ['\n']) ++
        (extractRecords b).2 ∧
      (∀ r ∈ (extractRecords b).1, '\n' ∉ r) ∧
      '\n' ∉ (extractRecords b).2 :=
  extractAux_spec b.length b (le_refl _)

/-- C9 counterexample: feeding the bytes `a CR LF` yields the record
`a CR` — the carriage return immediately preceding the line feed is
retained in the record, not stripped as the claim states. -/
theorem C9_cr_not_stripped :
    (extractRecords ['a', '\x0d', '\n']).1 = [['a', '\x0d']] ∧
      (['a', '\x0d'] : List Char) ≠ ['a'] :=
  ⟨by decide, by decide⟩

/-- C8: a DATA message whose position differs from the session's current
receive offset is answered with an ACK carrying the current receive offset
and leaves the whole session state untouched — in particular the receive
offset, the LineReader buffer, the record queue and the pending consumer
do not change, so no record is produced. -/
theorem C8_out_of_order_data (σ : SessionState) (pos : Nat) (d : List Char)
    (h : σ.readPos ≠ pos) :
    onData σ pos d = (σ, [ackMsg σ.sessionId σ.readPos]) := by
  rw [onData, if_neg h]

theorem C8_witness :
    (newSession 1).readPos ≠ 5 ∧
      onData (newSession 1) 5 ['x'] = (newSession 1, [ackMsg 1 0]) :=
  ⟨by decide, C8_out_of_order_data (newSession 1) 5 ['x'] (by decide)⟩


theorem onLine_fields (σ : SessionState) (l : List Char) :
    (onLine σ l).closed = σ.closed ∧
      (onLine σ l).maxAckLength = σ.maxAckLength ∧
      (onLine σ l).sendLength = σ.sendLength := by
  rw [onLine]
  split
  · exact ⟨rfl, rfl, rfl⟩
  · exact ⟨rfl, rfl, rfl⟩

theorem feedLines_fields : ∀ lines (σ : SessionState),
    (feedLines σ lines).closed = σ.closed ∧
      (feedLines σ lines).maxAckLength = σ.maxAckLength ∧
      (feedLines σ lines).sendLength = σ.sendLength := by
  intro lines
  induction lines with
  | nil => exact fun σ => ⟨rfl, rfl, rfl⟩
  | cons l rest ih =>
    intro σ
    rw [feedLines]
    obtain ⟨h1, h2, h3⟩ := ih (onLine σ l)
    obtain ⟨g1, g2, g3⟩ := onLine_fields σ l
    exact ⟨h1.trans g1, h2.trans g2, h3.trans g3⟩

theorem sendAll_fields : ∀ chunks (σ : SessionState),
    (sendAll σ chunks).1.closed = σ.closed ∧
      (sendAll σ chunks).1.maxAckLength = σ.maxAckLength ∧
      σ.sendLength ≤ (sendAll σ chunks).1.sendLength := by
  intro chunks
  induction chunks with
  | nil => exact fun σ => ⟨rfl, rfl, le_refl _⟩
  | cons c rest ih =>
    intro σ
    rw [sendAll]
    dsimp only
    obtain ⟨h1, h2, h3⟩ := ih (dataStep σ c).1
    refine ⟨h1.trans rfl, h2.trans rfl, ?_⟩
    have hd : (dataStep σ c).1.sendLength = σ.sendLength + c.length := rfl
    omega

theorem step_inv (σ : SessionState) (s : SStep)
    (h : σ.closed = true ∨ σ.maxAckLength ≤ σ.sendLength) :
    (stepFn σ s).1.closed = true ∨
      (stepFn σ s).1.maxAckLength ≤ (stepFn σ s).1.sendLength := by
  cases s with
  | write str =>
    dsimp only [stepFn, writeS]
    obtain ⟨h1, h2, h3⟩ := sendAll_fields (writeChunks str) σ
    rcases h with hc | hle
    · left
      rw [h1, hc]
    · right
      rw [h2]
      omega
  | onData pos d =>
    dsimp only [stepFn]
    rw [onData]
    by_cases hp : σ.readPos = pos
    · rw [if_pos hp]
      dsimp only
      obtain ⟨h1, h2, h3⟩ :=
        feedLines_fields
          (extractRecords (σ.lineBuf ++ d)).1
          { σ with readPos := σ.readPos + d.length
                   lineBuf := (extractRecords (σ.lineBuf ++ d)).2 }
      rcases h with hc | hle
      · left
        rw [h1]
        exact hc
      · right
        rw [h2, h3]
        exact hle
    · rw [if_neg hp]
      exact h
  | onAck n =>
    dsimp only [stepFn]
    rw [onAck]
    by_cases h1 : n ≤ σ.maxAckLength
    · rw [if_pos h1]
      exact h
    · rw [if_neg h1]
      dsimp only
      by_cases h2 : σ.sendLength < n
      · rw [if_pos h2]
        left
        rfl
      · rw [if_neg h2]
        by_cases h3 : n = σ.sendLength
        · rw [if_pos h3]
          right
          dsimp only
          omega
        · rw [if_neg h3]
          right
          dsimp only
          omega
  | tick k =>
    dsimp only [stepFn]
    rw [tickStep]
    cases hk : σ.intervals[k]? with
    | none => exact h
    | some iv =>
      dsimp only
      by_cases hc : σ.maxAckLength < iv.2
      · rw [if_pos hc]
        exact h
      · rw [if_neg hc]
        exact h
  | expire k =>
    dsimp only [stepFn]
    rw [expireStep]
    cases hk : σ.expiries[k]? with
    | none => exact h
    | some nsl =>
      dsimp only
      by_cases hc : σ.maxAckLength < nsl
      · rw [if_pos hc]
        left
        rfl
      · rw [if_neg hc]
        exact h

/-- C4 (amended): in every reachable session state whose closed flag is
still false, `maxAckLength ≤ sendLength`.  The claim's unrestricted version
fails: the ACK handler raises `maxAckLength` before the misbehaving-peer
check, so the closing step of an ACK exceeding `sendLength` leaves
`maxAckLength > sendLength` in the (closed) final state. -/
theorem C4_invariant_live (id : Nat) (steps : List SStep)
    (h : (runSteps (newSession id) steps).closed = false) :
    (runSteps (newSession id) steps).maxAckLength ≤
      (runSteps (newSession id) steps).sendLength := by
  suffices hs : ∀ σ : SessionState,
      (σ.closed = true ∨ σ.maxAckLength ≤ σ.sendLength) →
      ∀ rest, (runSteps σ rest).closed = true ∨
        (runSteps σ rest).maxAckLength ≤ (runSteps σ rest).sendLength by
    rcases hs (newSession id) (Or.inr (le_refl 0)) steps with hc | hle
    · rw [h] at hc
      cases hc
    · exact hle
  intro σ hσ rest
  induction rest generalizing σ with
  | nil => exact hσ
  | cons s rest ih =>
    rw [runSteps]
    exact ih (stepFn σ s).1 (step_inv σ s hσ)

/-- C4 counterexample: a fresh session (sendLength 0) that receives ACK(5)
— the misbehaving-ack step the claim explicitly includes — ends with
maxAckLength 5 > sendLength 0, violating the claimed invariant. -/
theorem C4_cex :
    (runSteps (newSession 1) [SStep.onAck 5]).sendLength <
      (runSteps (newSession 1) [SStep.onAck 5]).maxAckLength := by decide

theorem C4_witness :
    (runSteps (newSession 1) [SStep.write ['h', 'i'], SStep.onAck 2]).closed
        = false ∧
      (runSteps (newSession 1)
          [SStep.write ['h', 'i'], SStep.onAck 2]).maxAckLength ≤
        (runSteps (newSession 1)
          [SStep.write ['h', 'i'], SStep.onAck 2]).sendLength :=
  ⟨by decide,
    C4_invariant_live 1 [SStep.write ['h', 'i'], SStep.onAck 2] (by decide)⟩

/-- C6 (amended): when the expiry timeout of a segment fires while
`maxAckLength` is still below the segment's cumulative end offset, the
session is closed (closed flag set, pending consumer resolved with
end-of-stream, queue cleared) — but nothing is sent to the peer: the
timeout handler only calls `_close`, which sends no CLOSE message. -/
theorem C6_expiry_closes_silently (σ : SessionState) (k nsl : Nat)
    (hk : σ.expiries[k]? = some nsl) (h : σ.maxAckLength < nsl) :
    expireStep σ k =
      (closeS { σ with expiries := σ.expiries.eraseIdx k }, []) := by
  rw [expireStep, hk]
  dsimp only
  rw [if_pos h]

/-- C6 counterexample: a session with one unacknowledged two-byte segment
whose expiry fires — the session closes, yet the emitted datagram list is
empty: no CLOSE message is sent to the peer, contrary to the claim. -/
theorem C6_cex :
    (expireStep sessionAfterHi 0).1.closed = true ∧
      (expireStep sessionAfterHi 0).2 = [] ∧
      closeMsg 1 ∉ (expireStep sessionAfterHi 0).2 :=
  ⟨by decide, by decide, by decide⟩

theorem C6_witness :
    sessionAfterHi.expiries[0]? = some 2 ∧
      sessionAfterHi.maxAckLength < 2 ∧
      expireStep sessionAfterHi 0 =
        (closeS { sessionAfterHi with
          expiries := sessionAfterHi.expiries.eraseIdx 0 }, []) :=
  ⟨by decide, by decide,
    C6_expiry_closes_silently sessionAfterHi 0 2 (by decide) (by decide)⟩

/-- C7 (amended): at every firing of the retransmission interval armed for
a segment, `maxAckLength` is re-read: if it is still below the segment's
end offset the identical encoded bytes are resent (whether or not the
session has since closed), and once an ACK covering the segment has
arrived the interval self-cancels at its next firing without resending.
The expiry-driven close does not stop the interval (see the
counterexample). -/
theorem C7_retransmit (σ : SessionState) (k : Nat) (msg : List Char)
    (nsl : Nat) (hk : σ.intervals[k]? = some (msg, nsl)) :
    (σ.maxAckLength < nsl → tickStep σ k = (σ, [msg])) ∧
      (nsl ≤ σ.maxAckLength →
        tickStep σ k =
          ({ σ with intervals := σ.intervals.eraseIdx k }, [])) := by
  constructor
  · intro h
    rw [tickStep, hk]
    dsimp only
    rw [if_pos h]
  · intro h
    rw [tickStep, hk]
    dsimp only
    rw [if_neg (by omega)]

/-- C7 counterexample: after the expiry timeout closed the session (60000
ms after the unacknowledged send), the retransmission interval is still
armed and its next firing resends the same DATA bytes — the resending does
not stop when the session closes, contrary to the claim. -/
theorem C7_cex :
    sessionClosedByExpiry.closed = true ∧
      tickStep sessionClosedByExpiry 0 =
        (sessionClosedByExpiry, [dataMsg 1 0 ['h', 'i']]) :=
  ⟨by decide, by decide⟩

theorem C7_witness :
    sessionAfterHi.intervals[0]? = some (dataMsg 1 0 ['h', 'i'], 2) ∧
      tickStep sessionAfterHi 0 = (sessionAfterHi, [dataMsg 1 0 ['h', 'i']]) :=
  ⟨by decide,
    (C7_retransmit sessionAfterHi 0 (dataMsg 1 0 ['h', 'i']) 2 (by decide)).1
      (by decide)⟩

theorem regGet_regDel (reg : List (Nat × Nat)) (id : Nat) :
    regGet (regDel reg id) id = none := by
  induction reg with
  | nil => rfl
  | cons p rest ih =>
    rw [regDel, List.filter_cons]
    by_cases h : p.1 = id
    · rw [if_neg (by simp [h])]
      exact ih
    · rw [if_pos (by simp [h])]
      rw [regGet, if_neg h]
      exact ih

/-- C5 (amended): receiving CLOSE for an id sends exactly one CLOSE reply
and removes the id from the registry, so a subsequent DATA for that id is
answered with a CLOSE reply and changes nothing; but the Session object
itself is not touched: the store is unchanged, so its closed flag is not
set, no pending consumer is resolved, and its timers stay armed (see the
counterexample). -/
theorem C5_close_handler (st : ServerState) (id pos : Nat) (d : List Char) :
    (handleMsg st (Message.close id)).1.store = st.store ∧
      (handleMsg st (Message.close id)).2 = [closeMsg id] ∧
      regGet (handleMsg st (Message.close id)).1.reg id = none ∧
      handleMsg (handleMsg st (Message.close id)).1 (Message.data id pos d) =
        ((handleMsg st (Message.close id)).1, [closeMsg id]) := by
  refine ⟨rfl, rfl, regGet_regDel st.reg id, ?_⟩
  show handleMsg { st with reg := regDel st.reg id } (Message.data id pos d)
      = ({ st with reg := regDel st.reg id }, [closeMsg id])
  dsimp only [handleMsg]
  rw [regGet_regDel st.reg id]

/-- C5 counterexample: CONNECT(1), an application write (arming one
retransmission interval and one expiry timeout), then CLOSE(1): the id is
gone from the registry, but the Session object still has closed = false
and both timers armed — the claimed transition to the CLOSED state and
timer cancellation do not happen. -/
theorem C5_cex :
    c5state.store.map SessionState.closed = [false] ∧
      c5state.store.map (fun σ => σ.intervals.length) = [1] ∧
      c5state.store.map (fun σ => σ.expiries.length) = [1] ∧
      regGet c5state.reg 1 = none :=
  ⟨by decide, by decide, by decide, by decide⟩

end LRCP
